import Mathlib

/-!
Verification development for a structural-diff engine over self-describing
serialized values (`pot-diff`).  The definitions below are a shallow
embedding of the Rust sources:

* `src/lib.rs` — the value model, size estimation, differ and applier;
* `src/binary.rs` — the binary codec for change scripts.

External collaborators (the `pot` atom codec, the `ordered_varint` integer
encoding) are not part of the repository; where they are needed they are
modelled from the specification's description of their contract, and each
such definition is marked `Modelled from the spec`.

Machine integers are modelled as `Nat`/`Int`; byte streams are `List Nat`
whose elements are byte values.  Rust panics (the `todo` markers in the
applier, out-of-bounds indexing, and the lazily-constructed changes whose
closures are unreachable) are modelled as `Option.none` / a distinguished
`none` emission result.  Recursive functions that Rust runs on the heap are
given an explicit fuel argument bounding recursion depth; every wrapper
supplies fuel larger than the structural measure that bounds the real
recursion, so the embedding computes the same result as the source.
-/

namespace PotDiff

/-- Model of `pot::format::Float`.  Real floating-point arithmetic is not
modelled; a float value is identified by its bit pattern together with the
result of the (external) `as_f32().is_ok()` classification, which is the
only query the repository makes of a float. -/
structure FloatRep where
  asF32Ok : Bool
  bits : Nat
deriving DecidableEq, Repr

/-- Model of `pot::Value` (`src/lib.rs` uses it as its value tree).  Strings
are carried as their UTF-8 byte content, integers as unbounded `Int`
(pot's `Integer` compares numerically). -/
inductive Value where
  | none
  | unit
  | bool (b : Bool)
  | integer (i : Int)
  | float (f : FloatRep)
  | bytes (bs : List Nat)
  | string (s : List Nat)
  | sequence (vs : List Value)
  | mappings (es : List (Value × Value))
deriving Repr

/-- `Change` from `src/lib.rs` lines 654-694. -/
inductive Change where
  | enterSequence (index : Option Nat) (key : Bool)
  | enterMap (index : Option Nat) (key : Bool)
  | exit
  | replace (index : Option Nat) (value : Value)
  | replaceKey (index : Nat) (key : Value)
  | replaceMapping (index : Nat) (key : Value) (value : Value)
  | remove (index : Nat) (length : Nat)
  | truncate (length : Nat)
  | insert (index : Nat) (value : Value)
  | insertMapping (index : Nat) (key : Value) (value : Value)
deriving Repr

/-- `Diff` from `src/lib.rs` lines 18-21: an ordered list of changes. -/
structure Diff where
  changes : List Change
deriving Repr

/-- `as_i8().is_ok()` on a pot integer: the value is in `i8` range. -/
def asI8Ok (i : Int) : Bool := decide (-128 ≤ i ∧ i ≤ 127)

/-- `as_u8().is_ok()`. -/
def asU8Ok (i : Int) : Bool := decide (0 ≤ i ∧ i ≤ 255)

/-- `as_i16().is_ok()`. -/
def asI16Ok (i : Int) : Bool := decide (-32768 ≤ i ∧ i ≤ 32767)

/-- `as_u16().is_ok()`. -/
def asU16Ok (i : Int) : Bool := decide (0 ≤ i ∧ i ≤ 65535)

/-- `as_i32().is_ok()`. -/
def asI32Ok (i : Int) : Bool := decide (-(2 ^ 31) ≤ i ∧ i ≤ 2 ^ 31 - 1)

/-- `as_u32().is_ok()`. -/
def asU32Ok (i : Int) : Bool := decide (0 ≤ i ∧ i ≤ 2 ^ 32 - 1)

/-- `as_i64().is_ok()`. -/
def asI64Ok (i : Int) : Bool := decide (-(2 ^ 63) ≤ i ∧ i ≤ 2 ^ 63 - 1)

/-- `as_u64().is_ok()`. -/
def asU64Ok (i : Int) : Bool := decide (0 ≤ i ∧ i ≤ 2 ^ 64 - 1)

/-- `integer_size` from `src/lib.rs` lines 843-855. -/
def integer_size (i : Int) : Nat :=
  if asI8Ok i || asU8Ok i then 1
  else if asI16Ok i || asU16Ok i then 2
  else if asI32Ok i || asU32Ok i then 4
  else if asI64Ok i || asU64Ok i then 8
  else 16

/-- `estimate_usize_bytes` from `src/lib.rs` lines 948-965 (64-bit target). -/
def estimate_usize_bytes (value : Nat) : Nat :=
  if value ≤ 255 then 1
  else if value ≤ 65535 then 2
  else if value ≤ 2 ^ 32 - 1 then 4
  else 8

mutual

/-- The `estimated_bytes` field computed by `impl From<Value> for Estimated`
(`src/lib.rs` lines 773-813): `Estimated::new(commands, data_bytes, _)`
stores `commands + data_bytes`. -/
def estimate : Value → Nat
  | Value.none => 1 + 0
  | Value.unit => 1 + 0
  | Value.bool _ => 1 + 1
  | Value.integer i => 1 + integer_size i
  | Value.float f => 1 + (if f.asF32Ok then 4 else 8)
  | Value.bytes bs => 1 + bs.length
  | Value.string s => 1 + s.length
  | Value.sequence vs => (vs.length + 1) + estimateList vs
  | Value.mappings es => (es.length * 2 + 1) + estimatePairs es

/-- Sum of child estimates of a sequence (`values.iter().map(..).sum()`). -/
def estimateList : List Value → Nat
  | [] => 0
  | v :: rest => estimate v + estimateList rest

/-- Sum of key and value estimates of a mappings container. -/
def estimatePairs : List (Value × Value) → Nat
  | [] => 0
  | p :: rest => (estimate p.1 + estimate p.2) + estimatePairs rest

end

mutual

/-- `impl PartialEq<Value> for Estimated` (`src/lib.rs` lines 732-749);
the first argument is the (annotated) updated value, the second the
original.  Note the `Mappings` arm compares with `zip`/`all` and performs
no length check, exactly as the source does. -/
def estEq : Value → Value → Bool
  | Value.none, Value.none => true
  | Value.unit, Value.unit => true
  | Value.bool a, Value.bool b => a == b
  | Value.integer a, Value.integer b => a == b
  | Value.float a, Value.float b => a == b
  | Value.bytes a, Value.bytes b => a == b
  | Value.string a, Value.string b => a == b
  | Value.sequence a, Value.sequence b => a.length == b.length && estEqList a b
  | Value.mappings a, Value.mappings b => estEqPairs a b
  | _, _ => false

/-- Element-wise comparison after the length check, mirroring
`VecDeque<Estimated> == Vec<Value>` (length check is done by the caller). -/
def estEqList : List Value → List Value → Bool
  | a :: xs, b :: ys => estEq a b && estEqList xs ys
  | _, _ => true

/-- The `zip`-based pair comparison of the `Mappings` arm: it stops at the
shorter of the two lists (the source performs no length check here). -/
def estEqPairs : List (Value × Value) → List (Value × Value) → Bool
  | a :: xs, b :: ys => (estEq a.1 b.1 && estEq a.2 b.2) && estEqPairs xs ys
  | _, _ => true

end

/-- The sequence comparison `updated_sequence != original` in `create_diff`
(`src/lib.rs` line 87): `VecDeque<Estimated> == Vec<Value>` checks lengths
and then compares element-wise. -/
def sequenceEqual (upds origs : List Value) : Bool :=
  upds.length == origs.length && estEqList upds origs

/-- The mappings comparison in `create_diff` (`src/lib.rs` lines 108-112):
an explicit length check followed by a `zip` over the pairs. -/
def mappingsEqual (origs upds : List (Value × Value)) : Bool :=
  origs.length == upds.length && estEqPairs upds origs

/-- Combined result of running `create_diff` against both `Differ` sinks
(`src/lib.rs` lines 696-715).  The control flow of the recursion is
identical for the two sinks, so one pass models both:

* `count` is what the `Counter` sink accumulates — `1 + estimated_bytes`
  per logged change (the change closure is never evaluated);
* `emitted` is what the `Diff` sink collects — the constructed changes,
  with `Option.none` marking that the sink would evaluate a diverging
  change closure (the `unreachable` arm of `create_diff`) or that the
  modelling fuel ran out; in either case no script is produced. -/
structure DiffOut where
  count : Nat
  emitted : Option (List Change)

/-- No change logged. -/
def DiffOut.empty : DiffOut := ⟨0, some []⟩

/-- `log_change(est, change)` against both sinks at once. -/
def DiffOut.log (est : Nat) (c : Option Change) : DiffOut :=
  ⟨1 + est, c.map fun x => [x]⟩

/-- Sequential composition of two diffing stages. -/
def DiffOut.append (a b : DiffOut) : DiffOut :=
  ⟨a.count + b.count,
   a.emitted.bind fun x => b.emitted.map fun y => x ++ y⟩

instance : Append DiffOut := ⟨DiffOut.append⟩

/-- The insert loop of the sequence differ (`src/lib.rs` lines 175-186):
each value of the run is emitted as an `Insert` at successive indices. -/
def insertRun : List Value → Nat → DiffOut
  | [], _ => DiffOut.empty
  | v :: rest, idx =>
      DiffOut.log (estimate v + estimate_usize_bytes idx) (some (Change.insert idx v))
        ++ insertRun rest (idx + 1)

/-- The insert loop of the mappings differ (`src/lib.rs` lines 307-324). -/
def insertMappingRun : List (Value × Value) → Nat → DiffOut
  | [], _ => DiffOut.empty
  | p :: rest, idx =>
      DiffOut.log (estimate p.1 + estimate p.2 + estimate_usize_bytes idx)
          (some (Change.insertMapping idx p.1 p.2))
        ++ insertMappingRun rest (idx + 1)

mutual

/-- `Diff::create_diff` (`src/lib.rs` lines 69-132).  The first argument is
recursion fuel (the Rust recursion is bounded by the structure of the
updated value; callers pass fuel exceeding that bound, and exhaustion is
reported like a panic, as `emitted = Option.none`).  Guard failures of the
primitive-equality arms fall through to the final arm, which logs the
updated value's estimated bytes with a change closure that the `Diff` sink
must never evaluate. -/
def createDiffF : Nat → Option Nat → Value → Value → Bool → DiffOut
  | 0, _, _, _, _ => ⟨0, Option.none⟩
  | f + 1, diffIndex, original, updated, isKey =>
    match original, updated with
    | Value.none, Value.none => DiffOut.empty
    | Value.unit, Value.unit => DiffOut.empty
    | Value.bool o, Value.bool u =>
        if o == u then DiffOut.empty else DiffOut.log (estimate updated) Option.none
    | Value.integer o, Value.integer u =>
        if o == u then DiffOut.empty else DiffOut.log (estimate updated) Option.none
    | Value.float o, Value.float u =>
        if o == u then DiffOut.empty else DiffOut.log (estimate updated) Option.none
    | Value.bytes o, Value.bytes u =>
        if o == u then DiffOut.empty else DiffOut.log (estimate updated) Option.none
    | Value.string o, Value.string u =>
        if o == u then DiffOut.empty else DiffOut.log (estimate updated) Option.none
    | Value.sequence o, Value.sequence u =>
        if sequenceEqual u o then DiffOut.empty
        else
          DiffOut.log (estimate_usize_bytes (diffIndex.getD 0))
              (some (Change.enterSequence diffIndex isKey))
            ++ createSequenceDiffF f o u 0 0
            ++ DiffOut.log 0 (some Change.exit)
    | Value.mappings o, Value.mappings u =>
        if mappingsEqual o u then DiffOut.empty
        else
          DiffOut.log (diffIndex.getD 0) (some (Change.enterMap diffIndex isKey))
            ++ createMapDiffF f o u 0 0
            ++ DiffOut.log 0 (some Change.exit)
    | _, _ => DiffOut.log (estimate updated) Option.none

/-- `Diff::create_sequence_diff` (`src/lib.rs` lines 134-236), with the
loop expressed as recursion over the updated values and the two cursors
`original_index` / `insert_index` passed explicitly. -/
def createSequenceDiffF :
    Nat → List Value → List Value → Nat → Nat → DiffOut
  | 0, _, _, _, _ => ⟨0, Option.none⟩
  | f + 1, origs, upds, originalIndex, insertIndex =>
    match upds with
    | [] =>
        if originalIndex < origs.length then
          DiffOut.log (estimate_usize_bytes insertIndex)
            (some (Change.truncate insertIndex))
        else DiffOut.empty
    | u :: rest =>
      match origs[originalIndex]? with
      | Option.none =>
          DiffOut.log (estimate u + estimate_usize_bytes insertIndex)
              (some (Change.insert insertIndex u))
            ++ createSequenceDiffF f origs rest originalIndex (insertIndex + 1)
      | some o =>
        match (origs.drop originalIndex).findIdx? (fun ov => estEq u ov) with
        | some k =>
            (if 0 < k then
              DiffOut.log (estimate_usize_bytes insertIndex + estimate_usize_bytes k)
                (some (Change.remove insertIndex k))
            else DiffOut.empty)
              ++ createSequenceDiffF f origs rest (originalIndex + k + 1) (insertIndex + 1)
        | Option.none =>
          match rest.findIdx? (fun uv => estEq uv o) with
          | some k =>
              insertRun (u :: rest.take k) insertIndex
                ++ createSequenceDiffF f origs (rest.drop (k + 1))
                    (originalIndex + 1) (insertIndex + k + 2)
          | Option.none =>
              (if (createDiffF f (some insertIndex) o u false).count > estimate u then
                DiffOut.log (estimate u + estimate_usize_bytes insertIndex)
                  (some (Change.replace (some insertIndex) u))
              else createDiffF f (some insertIndex) o u false)
                ++ createSequenceDiffF f origs rest (originalIndex + 1) (insertIndex + 1)

/-- `Diff::create_map_diff` (`src/lib.rs` lines 238-406). -/
def createMapDiffF :
    Nat → List (Value × Value) → List (Value × Value) → Nat → Nat → DiffOut
  | 0, _, _, _, _ => ⟨0, Option.none⟩
  | f + 1, origs, upds, originalIndex, insertIndex =>
    match upds with
    | [] =>
        if originalIndex < origs.length then
          DiffOut.log (estimate_usize_bytes insertIndex)
            (some (Change.truncate insertIndex))
        else DiffOut.empty
    | u :: rest =>
      match origs[originalIndex]? with
      | Option.none =>
          DiffOut.log (estimate u.1 + estimate u.2 + estimate_usize_bytes insertIndex)
              (some (Change.insertMapping insertIndex u.1 u.2))
            ++ createMapDiffF f origs rest originalIndex (insertIndex + 1)
      | some o =>
        match (origs.drop originalIndex).findIdx? (fun op => estEq u.1 op.1) with
        | some k =>
            let o2 := ((origs.drop originalIndex)[k]?.getD o).2
            (if 0 < k then
              DiffOut.log (estimate_usize_bytes insertIndex * k)
                (some (Change.remove insertIndex k))
            else DiffOut.empty)
              ++ (if estEq u.2 o2 then DiffOut.empty
                  else if (createDiffF f (some insertIndex) o2 u.2 false).count > estimate u.2 then
                    DiffOut.log (estimate u.2 + estimate_usize_bytes insertIndex)
                      (some (Change.replace (some insertIndex) u.2))
                  else createDiffF f (some insertIndex) o2 u.2 false)
              ++ createMapDiffF f origs rest (originalIndex + k + 1) (insertIndex + 1)
        | Option.none =>
          match rest.findIdx? (fun up => estEq up.1 o.1) with
          | some k =>
              insertMappingRun (u :: rest.take k) insertIndex
                ++ createMapDiffF f origs (rest.drop (k + 1))
                    (originalIndex + 1) (insertIndex + k + 2)
          | Option.none =>
              (if estEq u.2 o.2 then
                if (createDiffF f (some insertIndex) o.1 u.1 true).count > estimate u.1 then
                  DiffOut.log (estimate u.1 + estimate_usize_bytes insertIndex)
                    (some (Change.replaceKey insertIndex u.1))
                else createDiffF f (some insertIndex) o.1 u.1 true
              else
                DiffOut.log (estimate u.1 + estimate u.2 + estimate_usize_bytes insertIndex)
                  (some (Change.replaceMapping insertIndex u.1 u.2)))
                ++ createMapDiffF f origs rest (originalIndex + 1) (insertIndex + 1)

end

/-- `true` exactly on `Change::Exit`. -/
def isExitChange : Change → Bool
  | Change.exit => true
  | _ => false

/-- The trailing-`Exit` stripping loop of `Diff::between_values`
(`src/lib.rs` lines 61-64). -/
def stripTrailingExits (cs : List Change) : List Change :=
  (cs.reverse.dropWhile isExitChange).reverse

/-- `Diff::between_values` (`src/lib.rs` lines 40-67): measure the diff
against the counting sink; if the measured cost exceeds the updated
value's estimate, emit a single root replace, otherwise emit the measured
diff; finally strip trailing exits.  `Option.none` models a panic inside
emission (never reached on the inputs used in this development). -/
def between_values (original updated : Value) : Option Diff :=
  let fuel := (estimate updated + 1) * 2
  let both := createDiffF fuel Option.none original updated false
  let changes :=
    if both.count > estimate updated then some [Change.replace Option.none updated]
    else both.emitted
  changes.map fun cs => ⟨stripTrailingExits cs⟩

mutual

/-- `apply_changes_to_sequence` (`src/lib.rs` lines 511-568).  The change
stream is passed explicitly and the remaining stream is returned alongside
the updated elements.  `Option.none` models a panic: every arm the source
leaves as a `todo` marker, as well as the unchecked `values[index] = value`
indexing, and fuel exhaustion (the fuel passed by `apply_to_value` exceeds
the stream length, which bounds the number of loop iterations). -/
def applySeqF : Nat → List Value → List Change → Option (List Value × List Change)
  | _, values, [] => some (values, [])
  | 0, _, _ :: _ => Option.none
  | f + 1, values, c :: rest =>
    match c with
    | Change.replace (some i) v =>
        if i < values.length then applySeqF f (values.set i v) rest else Option.none
    | Change.remove i len =>
        if i + len ≤ values.length then
          applySeqF f (values.take i ++ values.drop (i + len)) rest
        else Option.none
    | Change.truncate len =>
        if len ≤ values.length then applySeqF f (values.take len) rest else Option.none
    | Change.insert i v =>
        if i ≤ values.length then
          applySeqF f (values.take i ++ v :: values.drop i) rest
        else Option.none
    | Change.enterSequence (some i) false =>
        match values[i]? with
        | some (Value.sequence inner) =>
            (applySeqF f inner rest).bind fun r =>
              applySeqF f (values.set i (Value.sequence r.1)) r.2
        | _ => Option.none
    | Change.enterMap (some i) false =>
        match values[i]? with
        | some (Value.mappings inner) =>
            (applyMapF f inner rest).bind fun r =>
              applySeqF f (values.set i (Value.mappings r.1)) r.2
        | _ => Option.none
    | Change.exit => some (values, rest)
    | _ => Option.none

/-- `apply_changes_to_mappings` (`src/lib.rs` lines 570-641). -/
def applyMapF :
    Nat → List (Value × Value) → List Change → Option (List (Value × Value) × List Change)
  | _, values, [] => some (values, [])
  | 0, _, _ :: _ => Option.none
  | f + 1, values, c :: rest =>
    match c with
    | Change.replaceMapping i k v =>
        if i < values.length then applyMapF f (values.set i (k, v)) rest else Option.none
    | Change.replace (some i) v =>
        match values[i]? with
        | some p => applyMapF f (values.set i (p.1, v)) rest
        | Option.none => Option.none
    | Change.replaceKey i k =>
        match values[i]? with
        | some p => applyMapF f (values.set i (k, p.2)) rest
        | Option.none => Option.none
    | Change.remove i len =>
        if i + len ≤ values.length then
          applyMapF f (values.take i ++ values.drop (i + len)) rest
        else Option.none
    | Change.truncate len =>
        if len ≤ values.length then applyMapF f (values.take len) rest else Option.none
    | Change.insertMapping i k v =>
        if i ≤ values.length then
          applyMapF f (values.take i ++ (k, v) :: values.drop i) rest
        else Option.none
    | Change.enterSequence (some i) key =>
        match values[i]? with
        | some p =>
            match (if key then p.1 else p.2) with
            | Value.sequence inner =>
                (applySeqF f inner rest).bind fun r =>
                  applyMapF f
                    (values.set i
                      (if key then (Value.sequence r.1, p.2) else (p.1, Value.sequence r.1)))
                    r.2
            | _ => Option.none
        | Option.none => Option.none
    | Change.enterMap (some i) key =>
        match values[i]? with
        | some p =>
            match (if key then p.1 else p.2) with
            | Value.mappings inner =>
                (applyMapF f inner rest).bind fun r =>
                  applyMapF f
                    (values.set i
                      (if key then (Value.mappings r.1, p.2) else (p.1, Value.mappings r.1)))
                    r.2
            | _ => Option.none
        | Option.none => Option.none
    | Change.exit => some (values, rest)
    | _ => Option.none

end

/-- `Diff::apply_to_value` (`src/lib.rs` lines 413-445).  Only the first
change is inspected at the root; a root-level `Replace` returns its value
immediately (any later changes are dropped with the iterator), root
`Enter`s descend, an empty script returns the value unchanged, and every
other first change is a `todo` panic, modelled as `Option.none`. -/
def apply_to_value (d : Diff) (value : Value) : Option Value :=
  match d.changes with
  | Change.replace Option.none v :: _ => some v
  | Change.enterSequence Option.none false :: rest =>
      match value with
      | Value.sequence s =>
          (applySeqF (d.changes.length + 1) s rest).map fun r => Value.sequence r.1
      | _ => Option.none
  | Change.enterMap Option.none false :: rest =>
      match value with
      | Value.mappings m =>
          (applyMapF (d.changes.length + 1) m rest).map fun r => Value.mappings r.1
      | _ => Option.none
  | [] => some value
  | _ => Option.none

/-- A UTF-8 continuation byte. -/
def isUtf8Cont (c : Nat) : Bool := 0x80 ≤ c && c ≤ 0xBF

/-- `std::str::from_utf8(..).is_ok()`: the standard UTF-8 validation
automaton (shortest-form encodings only, surrogates excluded). -/
def validUtf8 : List Nat → Bool
  | [] => true
  | b :: rest =>
    if b < 0x80 then validUtf8 rest
    else if b < 0xC2 then false
    else if b < 0xE0 then
      match rest with
      | c1 :: rest2 => isUtf8Cont c1 && validUtf8 rest2
      | [] => false
    else if b < 0xF0 then
      match rest with
      | c1 :: c2 :: rest2 =>
          (if b == 0xE0 then 0xA0 ≤ c1 && c1 ≤ 0xBF
           else if b == 0xED then 0x80 ≤ c1 && c1 ≤ 0x9F
           else isUtf8Cont c1) && isUtf8Cont c2 && validUtf8 rest2
      | _ => false
    else if b < 0xF5 then
      match rest with
      | c1 :: c2 :: c3 :: rest2 =>
          (if b == 0xF0 then 0x90 ≤ c1 && c1 ≤ 0xBF
           else if b == 0xF4 then 0x80 ≤ c1 && c1 ≤ 0x8F
           else isUtf8Cont c1) && isUtf8Cont c2 && isUtf8Cont c3 && validUtf8 rest2
      | _ => false
    else false

/-- Big-endian base-256 digits of `n`, with fuel (the digit count is at
most `n`, so `beDigits` below always has enough). -/
def beDigitsF : Nat → Nat → List Nat
  | 0, _ => []
  | f + 1, n => if n = 0 then [] else beDigitsF f (n / 256) ++ [n % 256]

/-- Big-endian base-256 digits of `n` (empty for zero). -/
def beDigits (n : Nat) : List Nat := beDigitsF n n

/-- Reassemble a big-endian byte list. -/
def bytesToNatBE (bs : List Nat) : Nat := bs.foldl (fun acc b => acc * 256 + b) 0

/-- Modelled from the spec: the external `ordered_varint` encoding of an
unsigned integer, described as a variable-length/length-prefixed encoding
whose byte order matches numeric order.  Values below 128 occupy a single
byte; larger values get a length-prefix byte followed by big-endian
digits. -/
def encodeVariable (n : Nat) : List Nat :=
  if n < 128 then [n] else (128 + (beDigits n).length) :: beDigits n

/-- Modelled from the spec: decoder matching `encodeVariable`; consumes
from the front of the stream and returns the remaining bytes.  `none`
models the decode error (reading past the end of the stream). -/
def decodeVariable : List Nat → Option (Nat × List Nat)
  | [] => Option.none
  | b :: rest =>
    if b < 128 then some (b, rest)
    else
      let len := b - 128
      if len ≤ rest.length then some (bytesToNatBE (rest.take len), rest.drop len)
      else Option.none

/-- `pot::format::Kind` (the eight atom kinds of the external codec). -/
inductive AtomKind where
  | special
  | int
  | uint
  | float
  | sequence
  | map
  | symbol
  | bytes
deriving DecidableEq, Repr

/-- Modelled from the spec: the kind tag byte of the external atom codec. -/
def atomKindId : AtomKind → Nat
  | AtomKind.special => 0
  | AtomKind.int => 1
  | AtomKind.uint => 2
  | AtomKind.float => 3
  | AtomKind.sequence => 4
  | AtomKind.map => 5
  | AtomKind.symbol => 6
  | AtomKind.bytes => 7

/-- `pot::format::Nucleus`: the primitive payload carried by an atom. -/
inductive Nucleus where
  | unit
  | boolean (b : Bool)
  | integer (i : Int)
  | float (f : FloatRep)
  | bytes (bs : List Nat)
deriving Repr

/-- `pot::reader::Atom`: kind, composite length argument, payload. -/
structure Atom where
  kind : AtomKind
  arg : Nat
  nucleus : Option Nucleus

/-- `DecodeError` from `src/binary.rs` lines 350-360 (the `Pot` variant's
payload is not modelled). -/
inductive DecodeError where
  | unsupportedVersion
  | unexpectedEof
  | invalidData
  | pot
deriving DecidableEq, Repr

/-- Modelled from the spec: `write_none` of the external codec. -/
def write_none : List Nat := [0, 0]

/-- Modelled from the spec: `write_unit`. -/
def write_unit : List Nat := [0, 1]

/-- Modelled from the spec: `write_bool`. -/
def write_bool (b : Bool) : List Nat := [0, if b then 3 else 2]

/-- Modelled from the spec: `Integer::write_to` — a signed atom for
negative values, an unsigned atom otherwise. -/
def write_integer (i : Int) : List Nat :=
  if i < 0 then 1 :: encodeVariable (-(i + 1)).toNat else 2 :: encodeVariable i.toNat

/-- Modelled from the spec: `Float::write_to` — a width flag and the bit
pattern. -/
def write_float (f : FloatRep) : List Nat :=
  3 :: (if f.asF32Ok then 1 else 0) :: encodeVariable f.bits

/-- Modelled from the spec: `write_bytes` — a `Bytes`-kind atom carrying a
length-prefixed payload. -/
def write_bytes (bs : List Nat) : List Nat := 7 :: (encodeVariable bs.length ++ bs)

/-- Modelled from the spec: `write_str` — pot writes strings as
`Bytes`-kind atoms carrying the UTF-8 payload (the reader has no separate
string kind, cf. `read_value` in `src/binary.rs`). -/
def write_str (s : List Nat) : List Nat := write_bytes s

/-- Modelled from the spec: `write_atom_header` for composites. -/
def write_atom_header (k : AtomKind) (len : Nat) : List Nat :=
  atomKindId k :: encodeVariable len

mutual

/-- `write_value` from `src/binary.rs` lines 125-173. -/
def write_value : Value → List Nat
  | Value.none => write_none
  | Value.unit => write_unit
  | Value.bool b => write_bool b
  | Value.integer i => write_integer i
  | Value.float f => write_float f
  | Value.bytes bs => write_bytes bs
  | Value.string s => write_str s
  | Value.sequence vs => write_atom_header AtomKind.sequence vs.length ++ writeValues vs
  | Value.mappings es => write_atom_header AtomKind.map es.length ++ writePairs es

/-- Children of a sequence, written contiguously. -/
def writeValues : List Value → List Nat
  | [] => []
  | v :: rest => write_value v ++ writeValues rest

/-- Keys and values of a mappings container, written contiguously. -/
def writePairs : List (Value × Value) → List Nat
  | [] => []
  | p :: rest => write_value p.1 ++ write_value p.2 ++ writePairs rest

end

/-- `encode` for a single change (`src/binary.rs` lines 41-114); the first
byte packs the variant id in the upper nibble and the flags in the lower
nibble (`KEY = 1`, `ROOT = 2`, `MAPPING = 4`). -/
def encodeChange : Change → List Nat
  | Change.enterSequence index key =>
      ((0 <<< 4) ||| ((if key then 1 else 0) ||| (if index.isNone then 2 else 0))) ::
        (match index with | some i => encodeVariable i | Option.none => [])
  | Change.enterMap index key =>
      ((1 <<< 4) ||| ((if key then 1 else 0) ||| (if index.isNone then 2 else 0))) ::
        (match index with | some i => encodeVariable i | Option.none => [])
  | Change.exit => [(2 <<< 4) ||| 0]
  | Change.replace index value =>
      ((3 <<< 4) ||| (if index.isNone then 2 else 0)) ::
        ((match index with | some i => encodeVariable i | Option.none => []) ++
          write_value value)
  | Change.replaceKey index key =>
      ((3 <<< 4) ||| 1) :: (encodeVariable index ++ write_value key)
  | Change.replaceMapping index k v =>
      ((3 <<< 4) ||| 4) :: (encodeVariable index ++ write_value k ++ write_value v)
  | Change.remove index len =>
      ((4 <<< 4) ||| 0) :: (encodeVariable index ++ encodeVariable len)
  | Change.truncate len => ((5 <<< 4) ||| 0) :: encodeVariable len
  | Change.insert index v =>
      ((6 <<< 4) ||| 0) :: (encodeVariable index ++ write_value v)
  | Change.insertMapping index k v =>
      ((6 <<< 4) ||| 4) :: (encodeVariable index ++ write_value k ++ write_value v)

/-- `encode` from `src/binary.rs` lines 38-117: a version byte (0), the
change count as a varint, then the changes packed with no padding. -/
def encode (d : Diff) : List Nat :=
  0 :: (encodeVariable d.changes.length ++ (d.changes.map encodeChange).flatten)

/-- Lift the varint decoder's failure to the error the source observes
(reading past the end of the slice is an unexpected end of stream). -/
def liftVar : Option (Nat × List Nat) → Except DecodeError (Nat × List Nat)
  | some r => Except.ok r
  | Option.none => Except.error DecodeError.unexpectedEof

/-- Modelled from the spec: `pot::format::read_atom`, inverse of the
`write_*` functions above.  Failures inside the external codec surface as
the `Pot` error variant. -/
def read_atom : List Nat → Except DecodeError (Atom × List Nat)
  | [] => Except.error DecodeError.pot
  | k :: rest =>
    if k = 0 then
      match rest with
      | a :: rest2 =>
          if a = 0 then Except.ok (⟨AtomKind.special, 0, Option.none⟩, rest2)
          else if a = 1 then Except.ok (⟨AtomKind.special, 0, some Nucleus.unit⟩, rest2)
          else if a = 2 then
            Except.ok (⟨AtomKind.special, 0, some (Nucleus.boolean false)⟩, rest2)
          else if a = 3 then
            Except.ok (⟨AtomKind.special, 0, some (Nucleus.boolean true)⟩, rest2)
          else Except.error DecodeError.pot
      | [] => Except.error DecodeError.pot
    else if k = 1 then
      (liftVar (decodeVariable rest)).map fun r =>
        (⟨AtomKind.int, 0, some (Nucleus.integer (-(r.1 + 1 : Int)))⟩, r.2)
    else if k = 2 then
      (liftVar (decodeVariable rest)).map fun r =>
        (⟨AtomKind.uint, 0, some (Nucleus.integer (r.1 : Int))⟩, r.2)
    else if k = 3 then
      match rest with
      | fl :: rest2 =>
          (liftVar (decodeVariable rest2)).map fun r =>
            (⟨AtomKind.float, 0, some (Nucleus.float ⟨fl == 1, r.1⟩)⟩, r.2)
      | [] => Except.error DecodeError.pot
    else if k = 4 then
      (liftVar (decodeVariable rest)).map fun r => (⟨AtomKind.sequence, r.1, Option.none⟩, r.2)
    else if k = 5 then
      (liftVar (decodeVariable rest)).map fun r => (⟨AtomKind.map, r.1, Option.none⟩, r.2)
    else if k = 6 then Except.ok (⟨AtomKind.symbol, 0, Option.none⟩, rest)
    else if k = 7 then
      (liftVar (decodeVariable rest)).bind fun r =>
        if r.1 ≤ r.2.length then
          Except.ok (⟨AtomKind.bytes, r.1, some (Nucleus.bytes (r.2.take r.1))⟩, r.2.drop r.1)
        else Except.error DecodeError.pot
    else Except.error DecodeError.pot

mutual

/-- `read_value` from `src/binary.rs` lines 279-342: read one atom and
dispatch on its kind; a `Bytes` atom whose payload is valid UTF-8 is
surfaced as a `String` value.  The fuel argument bounds the number of
reads; the source's recursion consumes at least one byte per atom, so the
fuel supplied by `decode` is never exhausted (exhaustion is reported as
the external codec's error). -/
def read_value : Nat → List Nat → Except DecodeError (Value × List Nat)
  | 0, _ => Except.error DecodeError.pot
  | f + 1, bytes =>
    (read_atom bytes).bind fun (atom, rest) =>
      match atom.kind with
      | AtomKind.special =>
          match atom.nucleus with
          | some Nucleus.unit => Except.ok (Value.unit, rest)
          | some (Nucleus.boolean b) => Except.ok (Value.bool b, rest)
          | Option.none => Except.ok (Value.none, rest)
          | _ => Except.error DecodeError.invalidData
      | AtomKind.int =>
          match atom.nucleus with
          | some (Nucleus.integer i) => Except.ok (Value.integer i, rest)
          | _ => Except.error DecodeError.invalidData
      | AtomKind.uint =>
          match atom.nucleus with
          | some (Nucleus.integer i) => Except.ok (Value.integer i, rest)
          | _ => Except.error DecodeError.invalidData
      | AtomKind.float =>
          match atom.nucleus with
          | some (Nucleus.float fl) => Except.ok (Value.float fl, rest)
          | _ => Except.error DecodeError.invalidData
      | AtomKind.sequence =>
          if atom.arg < rest.length then
            (readValuesN f atom.arg rest).map fun r => (Value.sequence r.1, r.2)
          else Except.error DecodeError.invalidData
      | AtomKind.map =>
          if atom.arg < rest.length then
            (readPairsN f atom.arg rest).map fun r => (Value.mappings r.1, r.2)
          else Except.error DecodeError.invalidData
      | AtomKind.symbol => Except.error DecodeError.invalidData
      | AtomKind.bytes =>
          match atom.nucleus with
          | some (Nucleus.bytes bs) =>
              if validUtf8 bs then Except.ok (Value.string bs, rest)
              else Except.ok (Value.bytes bs, rest)
          | _ => Except.error DecodeError.invalidData

/-- The child loop of the `Sequence` arm of `read_value`. -/
def readValuesN : Nat → Nat → List Nat → Except DecodeError (List Value × List Nat)
  | _, 0, s => Except.ok ([], s)
  | 0, _ + 1, _ => Except.error DecodeError.pot
  | f + 1, n + 1, s =>
    (read_value f s).bind fun (v, s2) =>
      (readValuesN f n s2).map fun r => (v :: r.1, r.2)

/-- The key/value loop of the `Map` arm of `read_value`. -/
def readPairsN :
    Nat → Nat → List Nat → Except DecodeError (List (Value × Value) × List Nat)
  | _, 0, s => Except.ok ([], s)
  | 0, _ + 1, _ => Except.error DecodeError.pot
  | f + 1, n + 1, s =>
    (read_value f s).bind fun (k, s2) =>
      (read_value f s2).bind fun (v, s3) =>
        (readPairsN f n s3).map fun r => ((k, v) :: r.1, r.2)

end

/-- `read_change` from `src/binary.rs` lines 201-277: the upper nibble of
the first byte selects the variant, the lower nibble carries the
`KEY`/`ROOT`/`MAPPING` flags. -/
def read_change (fuel : Nat) (bytes : List Nat) : Except DecodeError (Change × List Nat) :=
  match bytes with
  | [] => Except.error DecodeError.unexpectedEof
  | header :: rest =>
    let variant := header >>> 4
    let key := header &&& 1 ≠ 0
    let isRoot := header &&& 2 ≠ 0
    let isMapping := header &&& 4 ≠ 0
    if variant = 0 then
      if isRoot then Except.ok (Change.enterSequence Option.none key, rest)
      else (liftVar (decodeVariable rest)).map fun r =>
        (Change.enterSequence (some r.1) key, r.2)
    else if variant = 1 then
      if isRoot then Except.ok (Change.enterMap Option.none key, rest)
      else (liftVar (decodeVariable rest)).map fun r => (Change.enterMap (some r.1) key, r.2)
    else if variant = 2 then Except.ok (Change.exit, rest)
    else if variant = 3 then
      if !key && !isMapping then
        if isRoot then
          (read_value fuel rest).map fun r => (Change.replace Option.none r.1, r.2)
        else
          (liftVar (decodeVariable rest)).bind fun ir =>
            (read_value fuel ir.2).map fun r => (Change.replace (some ir.1) r.1, r.2)
      else if !isRoot && key && !isMapping then
        (liftVar (decodeVariable rest)).bind fun ir =>
          (read_value fuel ir.2).map fun r => (Change.replaceKey ir.1 r.1, r.2)
      else if !isRoot && !key && isMapping then
        (liftVar (decodeVariable rest)).bind fun ir =>
          (read_value fuel ir.2).bind fun kr =>
            (read_value fuel kr.2).map fun vr => (Change.replaceMapping ir.1 kr.1 vr.1, vr.2)
      else Except.error DecodeError.invalidData
    else if variant = 4 then
      (liftVar (decodeVariable rest)).bind fun ir =>
        (liftVar (decodeVariable ir.2)).map fun lr => (Change.remove ir.1 lr.1, lr.2)
    else if variant = 5 then
      (liftVar (decodeVariable rest)).map fun lr => (Change.truncate lr.1, lr.2)
    else if variant = 6 then
      (liftVar (decodeVariable rest)).bind fun ir =>
        (read_value fuel ir.2).bind fun kr =>
          if isMapping then
            (read_value fuel kr.2).map fun vr => (Change.insertMapping ir.1 kr.1 vr.1, vr.2)
          else Except.ok (Change.insert ir.1 kr.1, kr.2)
    else Except.error DecodeError.invalidData

/-- The change-reading loop of `decode` (`src/binary.rs` lines 190-192). -/
def readChanges : Nat → Nat → List Nat → Except DecodeError (List Change × List Nat)
  | 0, _, s => Except.ok ([], s)
  | n + 1, fuel, s =>
    (read_change fuel s).bind fun (c, s2) =>
      (readChanges n fuel s2).map fun r => (c :: r.1, r.2)

/-- `decode` from `src/binary.rs` lines 175-195: reject a version byte
with any of its low seven bits set, read the change count, reject a count
exceeding the remaining byte count before building the change vector,
then read exactly that many changes (trailing bytes are ignored). -/
def decode (bytes : List Nat) : Except DecodeError Diff :=
  match bytes with
  | [] => Except.error DecodeError.unexpectedEof
  | header :: rest =>
    if header &&& 0x7F ≠ 0 then Except.error DecodeError.unsupportedVersion
    else
      match decodeVariable rest with
      | Option.none => Except.error DecodeError.unexpectedEof
      | some (numberOfChanges, rest2) =>
        if numberOfChanges > rest2.length then Except.error DecodeError.invalidData
        else
          (readChanges numberOfChanges (2 * (rest2.length + 1)) rest2).map fun r =>
            ⟨r.1⟩

/-- The spec's integer width table (§3.2, "1 if fits in 8 bits, else 2,
4, 8, or 16"), written from the spec's words for comparison with the
source's `integer_size`: an integer fits in `n` bits when it is
representable as a signed or as an unsigned `n`-bit value, and the union
of those two ranges is `[-2^(n-1), 2^n)`. -/
def specFitsBits (bits : Nat) (i : Int) : Bool :=
  decide (-(2 ^ (bits - 1)) ≤ i ∧ i < 2 ^ bits)

/-- The spec's integer byte-width by smallest fitting width (§3.2). -/
def specIntegerSize (i : Int) : Nat :=
  if specFitsBits 8 i then 1
  else if specFitsBits 16 i then 2
  else if specFitsBits 32 i then 4
  else if specFitsBits 64 i then 8
  else 16

mutual

/-- The spec's bottom-up `estimated_bytes` formula (§3.2), written from
the spec's words for comparison with the source's `estimate`. -/
def specEstimatedBytes : Value → Nat
  | Value.none => 1
  | Value.unit => 1
  | Value.bool _ => 2
  | Value.integer i => 1 + specIntegerSize i
  | Value.float f => 1 + (if f.asF32Ok then 4 else 8)
  | Value.bytes bs => 1 + bs.length
  | Value.string s => 1 + s.length
  | Value.sequence vs => (vs.length + 1) + specEstimatedList vs
  | Value.mappings es => (2 * es.length + 1) + specEstimatedPairs es

/-- Spec formula: sum of child estimates of a sequence. -/
def specEstimatedList : List Value → Nat
  | [] => 0
  | v :: rest => specEstimatedBytes v + specEstimatedList rest

/-- Spec formula: sum of key and value estimates of a mappings container. -/
def specEstimatedPairs : List (Value × Value) → Nat
  | [] => 0
  | p :: rest => (specEstimatedBytes p.1 + specEstimatedBytes p.2) + specEstimatedPairs rest

end

/-- A value embeddable in a change script that survives the decoder
unchanged: a primitive atom (composites are subject to the decoder's
strict `length < remaining` check, which rejects a container that ends
the stream even when its encoding is well-formed), whose payload is not
reinterpreted by the UTF-8 reclassification of `read_value` — a `Bytes`
payload must not be valid UTF-8, and a `String` payload must be valid
UTF-8 (guaranteed for Rust strings). -/
def atomGoodValue : Value → Bool
  | Value.none => true
  | Value.unit => true
  | Value.bool _ => true
  | Value.integer _ => true
  | Value.float _ => true
  | Value.bytes bs => !(validUtf8 bs)
  | Value.string s => validUtf8 s
  | Value.sequence _ => false
  | Value.mappings _ => false

/-- A change whose embedded values all satisfy `atomGoodValue`. -/
def changeGood : Change → Bool
  | Change.replace _ v => atomGoodValue v
  | Change.replaceKey _ k => atomGoodValue k
  | Change.replaceMapping _ k v => atomGoodValue k && atomGoodValue v
  | Change.insert _ v => atomGoodValue v
  | Change.insertMapping _ k v => atomGoodValue k && atomGoodValue v
  | _ => true

/-- The original value of the C1 failing input: the mapping
`{1: {1:2, 3:4}}`. -/
def c1Original : Value :=
  Value.mappings
    [(Value.integer 1,
      Value.mappings [(Value.integer 1, Value.integer 2), (Value.integer 3, Value.integer 4)])]

/-- The updated value of the C1 failing input: the mapping `{1: {1:2}}` —
the nested mapping lost its second entry. -/
def c1Updated : Value :=
  Value.mappings [(Value.integer 1, Value.mappings [(Value.integer 1, Value.integer 2)])]

/-! ### Helper lemmas -/

theorem bytesToNatBE_append_digit (xs : List Nat) (b : Nat) :
    bytesToNatBE (xs ++ [b]) = bytesToNatBE xs * 256 + b := by
  simp [bytesToNatBE, List.foldl_append]

theorem beDigitsF_spec : ∀ f n, n ≤ f → bytesToNatBE (beDigitsF f n) = n := by
  intro f
  induction f with
  | zero =>
      intro n h
      have hn : n = 0 := Nat.le_zero.mp h
      simp [hn, beDigitsF, bytesToNatBE]
  | succ f ih =>
      intro n h
      by_cases h0 : n = 0
      · simp [h0, beDigitsF, bytesToNatBE]
      · rw [beDigitsF, if_neg h0, bytesToNatBE_append_digit]
        have hdiv : n / 256 < n := Nat.div_lt_self (Nat.pos_of_ne_zero h0) (by norm_num)
        rw [ih (n / 256) (by omega)]
        have hmod := Nat.div_add_mod n 256
        omega

theorem bytesToNatBE_beDigits (n : Nat) : bytesToNatBE (beDigits n) = n :=
  beDigitsF_spec n n le_rfl

theorem decodeVariable_encodeVariable (n : Nat) (rest : List Nat) :
    decodeVariable (encodeVariable n ++ rest) = some (n, rest) := by
  by_cases h : n < 128
  · simp [encodeVariable, h, decodeVariable]
  · have hL : ¬ (128 + (beDigits n).length < 128) := by omega
    have hsub : 128 + (beDigits n).length - 128 = (beDigits n).length := by omega
    have hlen : (beDigits n).length ≤ (beDigits n ++ rest).length := by
      simp [List.length_append]
    simp only [encodeVariable, if_neg h, List.cons_append, decodeVariable, if_neg hL, hsub,
      if_pos hlen, List.take_left, List.drop_left, bytesToNatBE_beDigits]

theorem head?_dropWhile_not (p : Change → Bool) :
    ∀ l : List Change, ∀ x, ((l.dropWhile p).head? = some x) → p x = false := by
  intro l
  induction l with
  | nil => simp [List.dropWhile]
  | cons a t ih =>
      intro x h
      rw [List.dropWhile] at h
      cases hpa : p a with
      | true => rw [hpa] at h; exact ih x h
      | false => rw [hpa] at h; simp at h; subst h; exact hpa

theorem stripTrailingExits_getLast?_ne (cs : List Change) :
    (stripTrailingExits cs).getLast? ≠ some Change.exit := by
  intro h
  rw [stripTrailingExits, List.getLast?_reverse] at h
  have := head?_dropWhile_not isExitChange cs.reverse Change.exit h
  simp [isExitChange] at this

theorem read_value_bytes_atom (f : Nat) (bs rest : List Nat) :
    read_value (f + 1) (write_bytes bs ++ rest) =
      Except.ok ((if validUtf8 bs then Value.string bs else Value.bytes bs), rest) := by
  have hlen : bs.length ≤ (bs ++ rest).length := by simp
  simp only [write_bytes, List.cons_append, List.append_assoc, read_value, read_atom]
  norm_num
  rw [decodeVariable_encodeVariable]
  simp [liftVar, Except.bind, hlen, List.take_left, List.drop_left]
  split
  · rfl
  · rfl

theorem read_value_write_value (f : Nat) (v : Value) (rest : List Nat)
    (h : atomGoodValue v = true) :
    read_value (f + 1) (write_value v ++ rest) = Except.ok (v, rest) := by
  cases v with
  | none => rfl
  | unit => rfl
  | bool b => cases b <;> rfl
  | integer i =>
      by_cases hi : i < 0
      · simp only [write_value, write_integer, if_pos hi, List.cons_append, List.append_assoc,
          read_value, read_atom]
        norm_num
        rw [decodeVariable_encodeVariable]
        simp [liftVar, Except.bind, Except.map]
        omega
      · simp only [write_value, write_integer, if_neg hi, List.cons_append, List.append_assoc,
          read_value, read_atom]
        norm_num
        rw [decodeVariable_encodeVariable]
        simp [liftVar, Except.bind, Except.map]
        omega
  | float fl =>
      obtain ⟨a, bits⟩ := fl
      simp only [write_value, write_float, List.cons_append, List.append_assoc,
        read_value, read_atom]
      norm_num
      cases a <;>
        · rw [decodeVariable_encodeVariable]
          simp [liftVar, Except.bind, Except.map]
  | bytes bs =>
      simp only [atomGoodValue, Bool.not_eq_true'] at h
      simp [write_value, read_value_bytes_atom, h]
  | string s =>
      simp only [atomGoodValue] at h
      simp [write_value, write_str, read_value_bytes_atom, h]
  | sequence vs => simp [atomGoodValue] at h
  | mappings es => simp [atomGoodValue] at h

theorem read_change_encodeChange (f : Nat) (c : Change) (rest : List Nat)
    (h : changeGood c = true) :
    read_change (f + 1) (encodeChange c ++ rest) = Except.ok (c, rest) := by
  cases c with
  | enterSequence index key =>
      cases index with
      | none => cases key <;> rfl
      | some i =>
          cases key <;>
            simp [encodeChange, read_change, liftVar, Except.bind, Except.map,
              decodeVariable_encodeVariable]
  | enterMap index key =>
      cases index with
      | none => cases key <;> rfl
      | some i =>
          cases key <;>
            simp [encodeChange, read_change, liftVar, Except.bind, Except.map,
              decodeVariable_encodeVariable, (by decide : (16 : Nat) &&& 2 = 0),
              (by decide : (17 : Nat) &&& 2 = 0), (by decide : (16 : Nat) &&& 1 = 0),
              (by decide : (17 : Nat) &&& 1 = 1)]
  | exit => rfl
  | replace index v =>
      simp only [changeGood] at h
      cases index with
      | none =>
          simp [encodeChange, read_change, liftVar, Except.bind, Except.map,
            decodeVariable_encodeVariable, read_value_write_value, h,
            (by decide : (50 : Nat) &&& 4 = 0), (by decide : (50 : Nat) &&& 2 = 2),
            (by decide : (50 : Nat) &&& 1 = 0)]
      | some i =>
          simp [encodeChange, read_change, liftVar, Except.bind, Except.map,
            decodeVariable_encodeVariable, read_value_write_value, h,
            (by decide : (48 : Nat) &&& 4 = 0), (by decide : (48 : Nat) &&& 2 = 0),
            (by decide : (48 : Nat) &&& 1 = 0)]
  | replaceKey i k =>
      simp only [changeGood] at h
      simp [encodeChange, read_change, liftVar, Except.bind, Except.map,
        decodeVariable_encodeVariable, read_value_write_value, h,
        (by decide : (49 : Nat) &&& 4 = 0), (by decide : (49 : Nat) &&& 2 = 0),
        (by decide : (49 : Nat) &&& 1 = 1)]
  | replaceMapping i k v =>
      simp only [changeGood, Bool.and_eq_true] at h
      simp [encodeChange, read_change, liftVar, Except.bind, Except.map,
        decodeVariable_encodeVariable, read_value_write_value, h.1, h.2,
        (by decide : (52 : Nat) &&& 4 = 4), (by decide : (52 : Nat) &&& 2 = 0),
        (by decide : (52 : Nat) &&& 1 = 0)]
  | remove i len =>
      simp [encodeChange, read_change, liftVar, Except.bind, Except.map,
        decodeVariable_encodeVariable]
  | truncate len =>
      simp [encodeChange, read_change, liftVar, Except.bind, Except.map,
        decodeVariable_encodeVariable]
  | insert i v =>
      simp only [changeGood] at h
      simp [encodeChange, read_change, liftVar, Except.bind, Except.map,
        decodeVariable_encodeVariable, read_value_write_value, h,
        (by decide : (96 : Nat) &&& 4 = 0)]
  | insertMapping i k v =>
      simp only [changeGood, Bool.and_eq_true] at h
      simp [encodeChange, read_change, liftVar, Except.bind, Except.map,
        decodeVariable_encodeVariable, read_value_write_value, h.1, h.2]

theorem encodeChange_length_pos (c : Change) : 1 ≤ (encodeChange c).length := by
  cases c <;> simp [encodeChange]

theorem flatten_encode_length (cs : List Change) :
    cs.length ≤ ((cs.map encodeChange).flatten).length := by
  induction cs with
  | nil => simp
  | cons c t ih =>
      simp only [List.map_cons, List.flatten_cons, List.length_append, List.length_cons]
      have := encodeChange_length_pos c
      omega

theorem readChanges_encode (f : Nat) :
    ∀ cs : List Change, ∀ rest, (∀ c ∈ cs, changeGood c = true) →
      readChanges cs.length (f + 1) ((cs.map encodeChange).flatten ++ rest) =
        Except.ok (cs, rest) := by
  intro cs
  induction cs with
  | nil => intro rest _; simp [readChanges]
  | cons c t ih =>
      intro rest h
      have hc : changeGood c = true := h c (by simp)
      have ht : ∀ x ∈ t, changeGood x = true := fun x hx => h x (by simp [hx])
      simp only [List.map_cons, List.flatten_cons, List.append_assoc, List.length_cons,
        readChanges]
      rw [read_change_encodeChange f c _ hc]
      simp only [Except.bind]
      rw [ih _ ht]
      rfl

/-! ### Claims -/

/-- Claim C1 (code bug): `apply(diff(a, b), a) == b` fails on the code.
For `a = {1: {1:2, 3:4}}` and `b = {1: {1:2}}` the differ emits an empty
script — the `Estimated`/`Value` mappings comparison zips the pair lists
without a length check, so the shrunk nested mapping compares equal to
the original — and applying the empty script returns `a`, which differs
from `b`. -/
theorem claim_C1_apply_diff_bug :
    between_values c1Original c1Updated = some ⟨[]⟩ ∧
      apply_to_value ⟨[]⟩ c1Original = some c1Original ∧ c1Original ≠ c1Updated :=
  ⟨rfl, rfl, by simp [c1Original, c1Updated]⟩

/-- Claim C3 (code bug): a failed precondition during apply does not
produce a structural error value — the source's error paths are
`todo!("error")` panics (modelled as `Option.none`), and the `Error` type
exposed by apply has no structural variant at all.  Shown here on a
`Truncate` whose length exceeds the sequence length. -/
theorem claim_C3_apply_panics_on_failed_precondition :
    apply_to_value ⟨[Change.enterSequence Option.none false, Change.truncate 5]⟩
      (Value.sequence []) = Option.none := rfl

/-- Claim C4, counterexample: changes remaining after a root-level
`Replace` are not a protocol error — apply succeeds and returns the
replacement value, silently dropping the rest of the script. -/
theorem claim_C4_counterexample :
    apply_to_value ⟨[Change.replace Option.none Value.unit, Change.exit]⟩ Value.none =
        some Value.unit ∧
      apply_to_value ⟨[Change.replace Option.none Value.unit, Change.exit]⟩ Value.none ≠
        Option.none :=
  ⟨rfl, fun h => Option.noConfusion h⟩

/-- Claim C4, amended: if the first change of a script is
`Replace{index: None, value}`, then `apply_to_value` returns exactly that
value, and any remaining changes are ignored (not an error). -/
theorem claim_C4_root_replace_returns_value (v : Value) (rest : List Change) (target : Value) :
    apply_to_value ⟨Change.replace Option.none v :: rest⟩ target = some v := rfl

/-- Claim C5: in every script emitted by `Diff::between_values`, the last
change is not `Exit` (trailing exits are stripped after emission). -/
theorem claim_C5_no_trailing_exit (a b : Value) (d : Diff)
    (h : between_values a b = some d) : d.changes.getLast? ≠ some Change.exit := by
  simp only [between_values] at h
  rcases Option.map_eq_some'.mp h with ⟨cs, _, hd⟩
  subst hd
  exact stripTrailingExits_getLast?_ne cs

/-- Witness for C5 at a concrete input: diffing `None` against `Unit`
emits the single-change script `[Replace{None, Unit}]`. -/
theorem claim_C5_witness :
    between_values Value.none Value.unit = some ⟨[Change.replace Option.none Value.unit]⟩ ∧
      (Diff.mk [Change.replace Option.none Value.unit]).changes.getLast? ≠
        some Change.exit :=
  ⟨rfl, claim_C5_no_trailing_exit Value.none Value.unit _ rfl⟩

/-- Claim C7: decoding an embedded `Bytes` atom returns a `String` value
carrying the unaltered payload when the payload is valid UTF-8, and a
`Bytes` value carrying the unaltered payload otherwise
(`read_value`, `src/binary.rs` lines 330-340). -/
theorem claim_C7_bytes_atom_classification (f : Nat) (bs rest : List Nat) :
    read_value (f + 1) (write_bytes bs ++ rest) =
      Except.ok ((if validUtf8 bs then Value.string bs else Value.bytes bs), rest) :=
  read_value_bytes_atom f bs rest

/-- Claim C8: decoding any buffer whose first byte has one of its low
seven bits set yields `UnsupportedVersion`. -/
theorem claim_C8_version_rejection (b : Nat) (rest : List Nat) (h : b &&& 0x7F ≠ 0) :
    decode (b :: rest) = Except.error DecodeError.unsupportedVersion := by
  simp [decode, h]

/-- Witness for C8 at the concrete buffer `[1]`. -/
theorem claim_C8_witness :
    (1 : Nat) &&& 0x7F ≠ 0 ∧ decode [1] = Except.error DecodeError.unsupportedVersion :=
  ⟨by decide, claim_C8_version_rejection 1 [] (by decide)⟩

/-- Claim C9: when the declared change count exceeds the bytes remaining
after the count, `decode` returns `InvalidData`; in the source the check
sits before `Vec::with_capacity`, and here the error is returned before
any change is parsed. -/
theorem claim_C9_count_sanity_check (n : Nat) (rest : List Nat) (h : rest.length < n) :
    decode (0 :: (encodeVariable n ++ rest)) = Except.error DecodeError.invalidData := by
  simp [decode, decodeVariable_encodeVariable, h]

/-- Witness for C9 at the concrete buffer `[0, 1]` (count 1, no bytes). -/
theorem claim_C9_witness :
    ([] : List Nat).length < 1 ∧
      decode (0 :: (encodeVariable 1 ++ [])) = Except.error DecodeError.invalidData :=
  ⟨by decide, claim_C9_count_sanity_check 1 [] (by decide)⟩

/-- Claim C10: a version byte of `0x80` (top bit set, low seven bits
clear) is not rejected; decoding proceeds exactly as with version byte 0. -/
theorem claim_C10_top_bit_ignored (rest : List Nat) :
    decode (128 :: rest) = decode (0 :: rest) := by
  have h1 : (128 : Nat) &&& 127 = 0 := by decide
  have h2 : (0 : Nat) &&& 127 = 0 := by decide
  simp [decode, h1, h2]

theorem integer_size_eq_spec (i : Int) : integer_size i = specIntegerSize i := by
  simp only [integer_size, specIntegerSize, asI8Ok, asU8Ok, asI16Ok, asU16Ok, asI32Ok, asU32Ok,
    asI64Ok, asU64Ok, specFitsBits, Bool.or_eq_true, decide_eq_true_eq]
  norm_num
  split_ifs <;> omega

mutual

theorem estimate_eq_spec : (v : Value) → estimate v = specEstimatedBytes v
  | Value.none => rfl
  | Value.unit => rfl
  | Value.bool _ => rfl
  | Value.integer i => by
      simp only [estimate, specEstimatedBytes, integer_size_eq_spec]
  | Value.float _ => rfl
  | Value.bytes _ => rfl
  | Value.string _ => rfl
  | Value.sequence vs => by
      simp only [estimate, specEstimatedBytes, estimateList_eq_spec vs]
  | Value.mappings es => by
      simp only [estimate, specEstimatedBytes, estimatePairs_eq_spec es]
      omega

theorem estimateList_eq_spec : (vs : List Value) → estimateList vs = specEstimatedList vs
  | [] => rfl
  | v :: rest => by
      simp only [estimateList, specEstimatedList, estimate_eq_spec v, estimateList_eq_spec rest]

theorem estimatePairs_eq_spec :
    (es : List (Value × Value)) → estimatePairs es = specEstimatedPairs es
  | [] => rfl
  | p :: rest => by
      simp only [estimatePairs, specEstimatedPairs, estimate_eq_spec p.1, estimate_eq_spec p.2,
        estimatePairs_eq_spec rest]

end

/-- Claim C2, counterexample: `decode(encode(d)) == d` fails as stated.
The script `[Replace{None, Bytes([104, 105])}]` (payload "hi", valid
UTF-8) decodes to `[Replace{None, String([104, 105])}]` — the decoder
reclassifies UTF-8-valid `Bytes` atoms as `String` — which differs from
the original script. -/
theorem claim_C2_counterexample :
    decode (encode ⟨[Change.replace Option.none (Value.bytes [104, 105])]⟩) =
        Except.ok ⟨[Change.replace Option.none (Value.string [104, 105])]⟩ ∧
      (Diff.mk [Change.replace Option.none (Value.string [104, 105])]) ≠
        ⟨[Change.replace Option.none (Value.bytes [104, 105])]⟩ :=
  ⟨rfl, by simp⟩

/-- Claim C2, amended: `decode(encode(d)) = d` for every script whose
embedded values are primitive atoms whose payload classification is
stable under decoding (no `Bytes` with valid-UTF-8 payload — those come
back as `String` — and no embedded `Sequence`/`Mappings` containers,
whose strict `length < remaining` decode check can reject a container
that ends the stream, e.g. `[Insert{0, Sequence([])}]` decodes to
`InvalidData`). -/
theorem claim_C2_roundtrip_amended (d : Diff)
    (h : ∀ c ∈ d.changes, changeGood c = true) : decode (encode d) = Except.ok d := by
  obtain ⟨cs⟩ := d
  have hlen := flatten_encode_length cs
  have h127 : (0 : Nat) &&& 127 = 0 := by decide
  simp only [encode, decode, h127, ne_eq, not_true_eq_false, if_false, List.cons_append]
  norm_num
  simp only [decodeVariable_encodeVariable]
  rw [if_neg (by omega)]
  have hf : 2 * ((cs.map encodeChange).flatten.length + 1) =
      (2 * (cs.map encodeChange).flatten.length + 1) + 1 := by ring
  rw [hf]
  have hrc := readChanges_encode (2 * (cs.map encodeChange).flatten.length + 1) cs [] h
  rw [List.append_nil] at hrc
  rw [hrc]
  rfl

/-- Witness for the amended C2 at the concrete script
`[Insert{0, Bytes([255])}]` (payload not valid UTF-8). -/
theorem claim_C2_witness :
    (∀ c ∈ (Diff.mk [Change.insert 0 (Value.bytes [255])]).changes, changeGood c = true) ∧
      decode (encode ⟨[Change.insert 0 (Value.bytes [255])]⟩) =
        Except.ok ⟨[Change.insert 0 (Value.bytes [255])]⟩ :=
  ⟨by decide, claim_C2_roundtrip_amended _ (by decide)⟩

/-- Claim C6: for every value, the `estimated_bytes` computed by the
source's `impl From<Value> for Estimated` equals the spec's bottom-up
formula (1 for None/Unit, 2 for Bool, 1 plus the smallest fitting width
for Integer, 1 plus 4 or 8 for Float by 32-bit representability, 1 plus
payload length for Bytes/String, `(len + 1) + Σ child` for Sequence, and
`(2·len + 1) + Σ (key + value)` for Mappings). -/
theorem claim_C6_estimated_bytes_formula (v : Value) :
    estimate v = specEstimatedBytes v :=
  estimate_eq_spec v

end PotDiff
